import Mathlib

/-!
Shallow embedding of the EasyBuild toolkit-preparation engine
(`easybuild/tools/toolkit.py`, with its error machinery from
`easybuild/tools/build_log.py`).

Python dictionaries (`self.vars`, `os.environ`, `self.opts`) are modelled as
insertion-ordered association lists over `String` keys; `dict[k] = v` updates
the first binding of `k` in place or appends a fresh binding, matching CPython
insertion-order semantics.  Exceptions are modelled with `Except PyError`:
`log.error` raises `EasyBuildError` (build_log.py line 66), a missing dict key
raises `KeyError`, and a missing instance attribute raises `AttributeError`.
External collaborators (the module system, the filesystem, `os.environ`) enter
as explicit parameters.
-/

deriving instance DecidableEq for Except

namespace EasyBuild

/-- Python exception outcomes that the translated code can produce. -/
inductive PyError : Type where
  /-- `EasyBuildError`, raised by `EasyBuildLog.error` after formatting. -/
  | easyBuildError (msg : String)
  /-- `KeyError` from reading an absent dict key. -/
  | keyError (key : String)
  /-- `AttributeError` from reading an absent instance attribute. -/
  | attributeError (msg : String)
  /-- `TypeError`, e.g. `None` where a string is required. -/
  | typeError (msg : String)
deriving DecidableEq, Repr

/-- An environment / variable mapping: insertion-ordered `String`-keyed dict. -/
abbrev Env : Type := List (String × String)

/-- Dict read: value of the first binding of `k`, if any. -/
def getVar : Env → String → Option String
  | [], _ => none
  | (k', v') :: rest, k => if k' = k then some v' else getVar rest k

/-- Dict write `d[k] = v`: update the binding in place, else append. -/
def setVar : Env → String → String → Env
  | [], k, v => [(k, v)]
  | (k', v') :: rest, k, v =>
      if k' = k then (k, v) :: rest else (k', v') :: setVar rest k v

/-- A loaded module, as the module system reports it: a name/version record
(Python-side: the dicts returned by `Modules().loaded_modules()`). -/
structure Module where
  name : String
  version : String
deriving DecidableEq, Repr

/-! ## Dependency descriptors and `getDependencyVersion` (toolkit.py 84-108) -/

/-- A dependency descriptor dict.  Optional fields model optional dict keys:
`version` (explicit version), `dummy` (toolkit-independence marker, the Python
test is `'dummy' in dependency and dependency['dummy']`), `suffix`
(read with `dependency.get('suffix', '')`). -/
structure Dependency where
  name : String
  version : Option String := none
  dummy : Option Bool := none
  suffix : Option String := none
deriving DecidableEq, Repr

/-- `Toolkit.getDependencyVersion` (toolkit.py 84-108).  `tkname`/`tkversion`
are `self.name`/`self.version`; `available` stands for the module system's
`Modules().available(name, pattern)` answer, consulted only when the
descriptor carries no explicit version. -/
def getDependencyVersion (tkname tkversion : String)
    (available : String → String → List String) (dep : Dependency) :
    Except PyError String :=
  let toolkit : String :=
    if tkname ≠ "dummy" then "-" ++ tkname ++ "-" ++ tkversion
    else if tkversion ≠ "dummy" then tkversion
    else ""
  let toolkit : String := if dep.dummy = some true then "" else toolkit
  let suffix : String := dep.suffix.getD ""
  match dep.version with
  | some v => .ok (v ++ toolkit ++ suffix)
  | none =>
      let matches_ := available dep.name (toolkit ++ suffix)
      match matches_.getLast? with
      | some m => .ok m
      | none => .error (.easyBuildError
          ("No toolkit version for dependency name " ++ dep.name ++
           " (suffix " ++ toolkit ++ suffix ++ ") found"))

/-! ## Python string primitives, as structural recursion over `List Char`
(the core-library versions recurse on byte positions and do not reduce
inside the kernel, so kernel-checked evaluation needs these). -/

/-- Python `str.lower()`: lowercase every character. -/
def pyLower (s : String) : String := String.mk (s.data.map Char.toLower)

/-- Python `str.split(sep)` on a single-character separator, on char lists. -/
def pySplitList (sep : Char) : List Char → List (List Char)
  | [] => [[]]
  | c :: cs =>
      match pySplitList sep cs with
      | [] => if c = sep then [[], []] else [[c]]
      | p :: ps => if c = sep then [] :: p :: ps else (c :: p) :: ps

/-- Python `sep.join(parts)` on a single-character separator, on char lists. -/
def pyJoinList (sep : Char) : List (List Char) → List Char
  | [] => []
  | [p] => p
  | p :: ps => p ++ sep :: pyJoinList sep ps

/-- Python `sub in s` (substring containment), on char lists. -/
def containsSubList (sub : List Char) : List Char → Bool
  | [] => sub.isEmpty
  | c :: cs => sub.isPrefixOf (c :: cs) || containsSubList sub cs

/-- Python `sub in s` on strings. -/
def pyContains (s sub : String) : Bool := containsSubList sub.data s.data

/-- Strict lexicographic comparison of char lists (Python string `<`). -/
def charListLtb : List Char → List Char → Bool
  | [], [] => false
  | [], _ :: _ => true
  | _ :: _, [] => false
  | a :: as, b :: bs => if a < b then true else if b < a then false else charListLtb as bs

/-- Python string `<`. -/
def strLtb (a b : String) : Bool := charListLtb a.data b.data

/-- Stable ascending insertion (helper for `sortStrings`). -/
def insertSorted (a : String) : List String → List String
  | [] => [a]
  | b :: bs => if strLtb b a then b :: insertSorted a bs else a :: b :: bs

/-- Python `list.sort()` on strings: stable ascending sort. -/
def sortStrings : List String → List String
  | [] => []
  | a :: as => insertSorted a (sortStrings as)

/-! ## The preparation pipeline: `_generate_variables` (toolkit.py 247-311) -/

/-- One tag per preparation method in `known_preparation_methods`. -/
inductive Rule : Type where
  | gcc | icc | impi | mpich2 | mvapich2 | openmpi | qlogicmpi
  | atlas | fftw | gotoblas | imkl | lapack | blacs | flame | scalapack
deriving DecidableEq, Repr

/-- Generic assoc-list (string-keyed dict) read. -/
def assocGet {α : Type} : List (String × α) → String → Option α
  | [], _ => none
  | (k', v') :: rest, k => if k' = k then some v' else assocGet rest k

/-- Generic assoc-list dict write: update in place, else append. -/
def assocSet {α : Type} : List (String × α) → String → α → List (String × α)
  | [], k, v => [(k, v)]
  | (k', v') :: rest, k, v =>
      if k' = k then (k, v) :: rest else (k', v') :: assocSet rest k v

/-- `known_preparation_methods` (toolkit.py 253-273), in source order.  The
source comments say the numeric key prefix indicates the "order in which they
need to be run". -/
def known_preparation_methods : List (String × Rule) :=
  [("1_GCC", .gcc), ("1_icc", .icc),
   ("2_impi", .impi), ("2_MPICH2", .mpich2), ("2_MVAPICH2", .mvapich2),
   ("2_OpenMPI", .openmpi), ("2_QLogicMPI", .qlogicmpi),
   ("3_ATLAS", .atlas), ("3_FFTW", .fftw), ("3_GotoBLAS", .gotoblas),
   ("3_imkl", .imkl), ("4_LAPACK", .lapack),
   ("5_BLACS", .blacs), ("5_FLAME", .flame), ("6_ScaLAPACK", .scalapack)]

/-- The numeric priority prefix of a rule, as described by the spec
(compilers = 1, MPI = 2, BLAS-family = 3, LAPACK = 4, BLACS/FLAME = 5,
ScaLAPACK = 6). -/
def rulePriority : Rule → Nat
  | .gcc | .icc => 1
  | .impi | .mpich2 | .mvapich2 | .openmpi | .qlogicmpi => 2
  | .atlas | .fftw | .gotoblas | .imkl => 3
  | .lapack => 4
  | .blacs | .flame => 5
  | .scalapack => 6

/-- `meth_keys = known_preparation_methods.keys(); meth_keys.sort()`
(toolkit.py 282-283). -/
def meth_keys : List String := sortStrings (known_preparation_methods.map Prod.fst)

/-- `'_'.join(meth.split('_')[1:])` (toolkit.py 288): the method key with its
priority prefix stripped. -/
def methNamePart (meth : String) : String :=
  String.mk (pyJoinList '_' ((pySplitList '_' meth.data).drop 1))

/-- The inner search of toolkit.py 286-292: the first sorted method key whose
name part matches the (already lower-cased) dependency name. -/
def findMeth (dep : String) : List String → Option String
  | [] => none
  | m :: ms =>
      if pyLower dep = pyLower (methNamePart m) then some m else findMeth dep ms

/-- The selection loop of toolkit.py 284-294: for each dependency name in
order, append the matching preparation method, or fail fatally on the first
unmatched name. -/
def selectLoop (methKeys : List String) : List String → Except PyError (List Rule)
  | [] => .ok []
  | dep :: rest =>
      match findMeth dep methKeys with
      | some meth =>
          match assocGet known_preparation_methods meth with
          | some r => (selectLoop methKeys rest).map (fun rs => r :: rs)
          | none => .error (.keyError meth)
      | none => .error (.easyBuildError
          ("Don't know how to prepare for toolkit dependency " ++ dep))

/-- The rule-selection part of `_generate_variables` (toolkit.py 275-303):
the ordered list of preparation methods that get invoked, one per entry of
`toolkit_deps` (dependency names lower-cased, toolkit.py 276-278). -/
def selectPreparationMethods (toolkit_deps : List Module) : Except PyError (List Rule) :=
  selectLoop meth_keys (toolkit_deps.map (fun d => pyLower d.name))

/-! ## `toolkit_deps` computation in `prepare` (toolkit.py 147-165) -/

/-- Python `list.remove(x)`: drop the first element equal to `x`. -/
def removeFirst (x : Module) : List Module → List Module
  | [] => []
  | y :: ys => if y = x then ys else y :: removeFirst x ys

/-- CPython `for dep in lst: ... lst.remove(dep)` semantics for the loop at
toolkit.py 158-161: the iterator keeps a position index that advances every
step even when the current element is removed, and stops once the index
reaches the (shrunken) list length.  `fuel` is the initial list length, an
upper bound on the number of iterations (the index strictly increases and the
length never grows). -/
def toolkitDepsLoop (tkname : String) (prev : List Module) :
    Nat → List Module → Nat → List Module
  | 0, l, _ => l
  | fuel + 1, l, i =>
      if h : i < l.length then
        let dep := l.get ⟨i, h⟩
        let l' := if dep ∈ prev ∨ tkname = dep.name then removeFirst dep l else l
        toolkitDepsLoop tkname prev fuel l' (i + 1)
      else l

/-- The `toolkit_deps` value computed by `prepare` (toolkit.py 157-161):
start from the modules loaded after the toolkit module was loaded and run the
removal loop over it. -/
def computeToolkitDeps (tkname : String) (prev loadedAfter : List Module) : List Module :=
  toolkitDepsLoop tkname prev loadedAfter.length loadedAfter 0

/-! ## `_setVariables` (toolkit.py 201-223) -/

/-- The `dontset` argument: Python `None`, a comma-separated string, or a
list of variable names (toolkit.py 205-209 branches on `type(dontset)`). -/
inductive DontSet : Type where
  | noneV
  | str (s : String)
  | list (l : List String)

/-- `dontsetlist` (toolkit.py 205-209): split a string argument on commas,
take a list argument as is, anything else gives the empty list. -/
def dontsetListOf : DontSet → List String
  | .noneV => []
  | .str s => (pySplitList ',' s.data).map String.mk
  | .list l => l

/-- One iteration of the `_setVariables` loop (toolkit.py 211-223): skip keys
in `dontsetlist` entirely (the `continue` skips the mirror as well), else set
`key` and `SOFTVAR<key>` in the process environment. -/
def setVarStep (dontsetlist : List String) (e : Env) (kv : String × String) : Env :=
  if kv.1 ∈ dontsetlist then e
  else setVar (setVar e kv.1 kv.2) ("SOFTVAR" ++ kv.1) kv.2

/-- `Toolkit._setVariables` (toolkit.py 201-223), as a transformation of the
process environment `env` by the entries of `vars` in insertion order. -/
def _setVariables (dontset : DontSet) (vars : Env) (env : Env) : Env :=
  vars.foldl (setVarStep (dontsetListOf dontset)) env

/-! ## `setOptions` and the option dict (toolkit.py 44-51, 75-82) -/

/-- A Python option value: the opts dict holds booleans, `None`, or a string
(for `cstd`). -/
inductive OptVal : Type where
  | b (v : Bool)
  | s (v : String)
  | noneV
deriving DecidableEq, Repr

/-- The initial `self.opts` dict of `Toolkit.__init__` (toolkit.py 44-51), in
source order. -/
def defaultOpts : List (String × OptVal) :=
  [("usempi", .b false), ("cciscxx", .b false), ("pic", .b false), ("opt", .b false),
   ("noopt", .b false), ("lowopt", .b false), ("debug", .b false), ("optarch", .b true),
   ("i8", .b false), ("unroll", .b false), ("verbose", .b false), ("cstd", .noneV),
   ("shared", .b false), ("static", .b false), ("intel-static", .b false),
   ("loop", .b false), ("f2c", .b false), ("no-icc", .b false),
   ("packed-groups", .b false), ("32bit", .b false)]

/-- One iteration of the `setOptions` loop (toolkit.py 77-82): copy the value
when the key is recognized (`opt in self.opts`), else only warn. -/
def setOptStep (o : List (String × OptVal)) (kv : String × OptVal) : List (String × OptVal) :=
  if (assocGet o kv.1).isSome then assocSet o kv.1 kv.2 else o

/-- `Toolkit.setOptions` (toolkit.py 75-82): copy the value of every
recognized option key (`opt in self.opts`); unrecognized keys only produce a
warning and leave the opts dict untouched. -/
def setOptions (options opts : List (String × OptVal)) : List (String × OptVal) :=
  options.foldl setOptStep opts

/-! ## `_flagsForSubdirs` (toolkit.py 708-720) and
`_addDependencyVariables` (toolkit.py 182-199) -/

/-- `os.path.join(base, sub)` for one subdirectory component (POSIX rules). -/
def pathJoin (base sub : String) : String :=
  if ['/'].isPrefixOf sub.data then sub
  else if base.data = [] ∨ ['/'].isSuffixOf base.data then base ++ sub
  else base ++ "/" ++ sub

/-- Python `' '.join(flags)`. -/
def joinSpace (l : List String) : String := String.mk (pyJoinList ' ' (l.map String.data))

/-- One iteration of the flag-collection loop of `_flagsForSubdirs`
(toolkit.py 710-716): append `flag % directory` when the directory exists,
else only warn. -/
def flagStep (isdir : String → Bool) (base : String) (flagT : String → String)
    (fs : List String) (subdir : String) : List String :=
  let directory := pathJoin base subdir
  if isdir directory then fs ++ [flagT directory] else fs

/-- `Toolkit._flagsForSubdirs` (toolkit.py 708-720).  The filesystem enters
as the `isdir` oracle (`os.path.isdir`); `flagT` is the `flag % directory`
template.  Missing subdirectories are skipped with a warning; then the
variable is created as `''` if absent and `' ' + ' '.join(flags)` is appended. -/
def _flagsForSubdirs (isdir : String → Bool) (base : String) (subdirs : List String)
    (flagT : String → String) (varskey : String) (vars : Env) : Env :=
  let flags := subdirs.foldl (flagStep isdir base flagT) []
  let vars1 := if (getVar vars varskey).isSome then vars else setVar vars varskey ""
  setVar vars1 varskey (((getVar vars1 varskey).getD "") ++ " " ++ joinSpace flags)

/-- `Toolkit._addDependencyVariables` (toolkit.py 182-199) for the single
dependency the library rules pass: look up the software root
(`getSoftwareRoot`, external), fail fatally if absent, then fold include and
lib path flags into `CPPFLAGS` and `LDFLAGS`. -/
def _addDependencyVariables (getSoftwareRoot : String → Option String)
    (isdir : String → Bool) (depname : String) (vars : Env) : Except PyError Env :=
  match getSoftwareRoot depname with
  | none => .error (.easyBuildError (depname ++ " was not found in environment"))
  | some root =>
      let vars := _flagsForSubdirs isdir root ["include"] (fun d => "-I" ++ d) "CPPFLAGS" vars
      let vars := _flagsForSubdirs isdir root ["lib64", "lib"] (fun d => "-L" ++ d) "LDFLAGS" vars
      .ok vars

/-! ## Library preparation rules used by the claims -/

/-- `Toolkit.prepareATLAS` (toolkit.py 335-343). -/
def prepareATLAS (getSoftwareRoot : String → Option String) (isdir : String → Bool)
    (vars : Env) : Except PyError Env :=
  let vars := setVar vars "LIBBLAS" " -latlas -llapack -lcblas -lf77blas"
  let vars := setVar vars "LIBBLAS_MT" " -latlas -llapack -lptcblas -lptf77blas -lpthread"
  _addDependencyVariables getSoftwareRoot isdir "ATLAS" vars

/-- `Toolkit.prepareBLACS` (toolkit.py 345-353).  `LIBSCALAPACK_MT` copies
the just-assigned `LIBSCALAPACK` value. -/
def prepareBLACS (getSoftwareRoot : String → Option String) (isdir : String → Bool)
    (vars : Env) : Except PyError Env :=
  let vars := setVar vars "LIBSCALAPACK" " -lblacsF77init -lblacs "
  let vars := setVar vars "LIBSCALAPACK_MT" " -lblacsF77init -lblacs "
  _addDependencyVariables getSoftwareRoot isdir "BLACS" vars

/-- `Toolkit.prepareLAPACK` (toolkit.py 606-614): reads `LIBBLAS` and
`LIBBLAS_MT` from the vars dict (a `KeyError` if a BLAS rule has not run). -/
def prepareLAPACK (getSoftwareRoot : String → Option String) (isdir : String → Bool)
    (vars : Env) : Except PyError Env :=
  match getVar vars "LIBBLAS" with
  | none => .error (.keyError "LIBBLAS")
  | some b =>
      let vars := setVar vars "LIBLAPACK" (b ++ " -llapack")
      match getVar vars "LIBBLAS_MT" with
      | none => .error (.keyError "LIBBLAS_MT")
      | some bmt =>
          let vars := setVar vars "LIBLAPACK_MT" (bmt ++ " -llapack -lpthread")
          _addDependencyVariables getSoftwareRoot isdir "LAPACK" vars

/-- `Toolkit.prepareScaLAPACK` (toolkit.py 665-672): line 669 appends
`" -lscalapack"` to `LIBSCALAPACK`; line 670 appends
`" %s -lpthread" % self.vars['LIBSCALAPACK']` — the *updated* full
`LIBSCALAPACK` line — to `LIBSCALAPACK_MT`. -/
def prepareScaLAPACK (getSoftwareRoot : String → Option String) (isdir : String → Bool)
    (vars : Env) : Except PyError Env :=
  match getVar vars "LIBSCALAPACK" with
  | none => .error (.keyError "LIBSCALAPACK")
  | some ls =>
      let vars := setVar vars "LIBSCALAPACK" (ls ++ " -lscalapack")
      match getVar vars "LIBSCALAPACK_MT" with
      | none => .error (.keyError "LIBSCALAPACK_MT")
      | some mt =>
          match getVar vars "LIBSCALAPACK" with
          | none => .error (.keyError "LIBSCALAPACK")
          | some lsNew =>
              let vars := setVar vars "LIBSCALAPACK_MT" (mt ++ " " ++ lsNew ++ " -lpthread")
              _addDependencyVariables getSoftwareRoot isdir "ScaLAPACK" vars

/-! ## The compiler-dependent tail of `prepareIMKL` (toolkit.py 556-561) -/

/-- Python truthiness of an `os.getenv` result: `None` and `""` are falsy. -/
def pyTruthy : Option String → Bool
  | none => false
  | some s => !s.data.isEmpty

/-- Python `str.replace(pat, repl)` on char lists: replace every
non-overlapping occurrence left to right.  `fuel` (the input length) makes
the recursion structural; every step consumes at least one input char. -/
def replaceSubFuel (pat repl : List Char) : Nat → List Char → List Char
  | 0, l => l
  | _ + 1, [] => []
  | fuel + 1, c :: cs =>
      if pat ≠ [] ∧ pat.isPrefixOf (c :: cs) then
        repl ++ replaceSubFuel pat repl fuel ((c :: cs).drop pat.length)
      else c :: replaceSubFuel pat repl fuel cs

/-- Python `s.replace(pat, repl)` on strings (for a non-empty pattern). -/
def pyReplace (s pat repl : String) : String :=
  String.mk (replaceSubFuel pat.data repl.data s.data.length s.data)

/-- The `self.vars[var] = self.vars[var].replace('mkl_intel_lp64',
'mkl_gf_lp64')` loop of toolkit.py 558-559. -/
def swapVarsLoop : List String → Env → Except PyError Env
  | [], vs => .ok vs
  | var :: rest, vs =>
      match getVar vs var with
      | none => .error (.keyError var)
      | some s => swapVarsLoop rest (setVar vs var (pyReplace s "mkl_intel_lp64" "mkl_gf_lp64"))

/-- The compiler-conflict tail of `Toolkit.prepareIMKL` (toolkit.py 556-561),
embedded exactly as written: the outer guard tests `SOFTROOTGCC`, and the
inner guard of line 557 reads `SOFTROOTGCC` twice —
`if not (os.getenv('SOFTROOTGCC') or os.getenv('SOFTROOTGCC'))` — so inside
the outer branch it is always false and the `log.error` branch always runs. -/
def imklCompilerSwap (env : Env) (vars : Env) : Except PyError Env :=
  if pyTruthy (getVar env "SOFTROOTGCC") then
    if !(pyTruthy (getVar env "SOFTROOTGCC") || pyTruthy (getVar env "SOFTROOTGCC")) then
      swapVarsLoop ["LIBLAPACK", "LIBLAPACK_MT", "LIBSCALAPACK", "LIBSCALAPACK_MT"] vars
    else
      .error (.easyBuildError
        "Toolkit preparation with both GCC and Intel compilers loaded is not supported.")
  else .ok vars

/-! ## `prepareMPICH2` (toolkit.py 616-634) -/

/-- Python `"%s" % x` for an `os.getenv` result: `None` prints as `"None"`. -/
def fmtPyOpt : Option String → String
  | some s => s
  | none => "None"

/-- The `self.vars[i] = self.vars["MPI%s" % i]` promotion loop
(toolkit.py 630-632). -/
def promoteMPIVarsLoop : List String → Env → Except PyError Env
  | [], vs => .ok vs
  | i :: rest, vs =>
      match getVar vs ("MPI" ++ i) with
      | none => .error (.keyError ("MPI" ++ i))
      | some v => promoteMPIVarsLoop rest (setVar vs i v)

/-- `Toolkit.prepareMPICH2` (toolkit.py 616-634).  The ScaleMP branch wraps
the `CC`/`CXX`/`F77`/`F90` environment values in quoted `-cc=`-style wrapper
invocations.  The non-ScaleMP branch is `self.log.error(...)` in the source;
`Toolkit.__init__` (toolkit.py 35-59) never defines a `log` attribute, so
that attribute read raises `AttributeError`, not the `EasyBuildError` that
the module-level `log.error` would raise. -/
def prepareMPICH2 (env : Env) (cciscxx usempi : Bool) (m32flag : String)
    (vars : Env) : Except PyError Env :=
  match getVar env "SOFTVERSIONMPICH2" with
  | none => .error (.typeError "argument of type NoneType is not iterable")
  | some ver =>
      if pyContains ver "vSMP" then
        let vars := setVar vars "MPICC"
          ("mpicc -cc=\"" ++ fmtPyOpt (getVar env "CC") ++ " " ++ m32flag ++ "\"")
        let vars := setVar vars "MPICXX"
          ("mpicxx -CC=\"" ++ fmtPyOpt (getVar env "CXX") ++ " " ++ m32flag ++ "\"")
        let vars := setVar vars "MPIF77"
          ("mpif77 -fc=\"" ++ fmtPyOpt (getVar env "F77") ++ " " ++ m32flag ++ "\"")
        let vars := setVar vars "MPIF90"
          ("mpif90 -f90=\"" ++ fmtPyOpt (getVar env "F90") ++ " " ++ m32flag ++ "\"")
        if cciscxx then
          match getVar vars "MPICC" with
          | none => .error (.keyError "MPICC")
          | some mpicc =>
              let vars := setVar vars "MPICXX" mpicc
              if usempi then promoteMPIVarsLoop ["CC", "CXX", "F77", "F90"] vars else .ok vars
        else
          if usempi then promoteMPIVarsLoop ["CC", "CXX", "F77", "F90"] vars else .ok vars
      else
        .error (.attributeError "Toolkit instance has no attribute log")

/-! ## Concrete oracles for example configurations -/

/-- A software-root oracle for concrete configurations: every package
installed under `/software/<name>`. -/
def gsrStd : String → Option String := fun n => some ("/software/" ++ n)

/-- A filesystem oracle for concrete configurations: no subdirectory exists
(every lookup warns and is skipped). -/
def isdirNone : String → Bool := fun _ => false

/-! ## Dictionary and string lemmas -/

theorem getVar_setVar_self (e : Env) (k v : String) :
    getVar (setVar e k v) k = some v := by
  induction e with
  | nil => simp [setVar, getVar]
  | cons p rest ih =>
      obtain ⟨k', v'⟩ := p
      by_cases h : k' = k
      · subst h; simp [setVar, getVar]
      · simp [setVar, getVar, h, ih]

theorem getVar_setVar_ne (e : Env) (k' v k : String) (h : k' ≠ k) :
    getVar (setVar e k' v) k = getVar e k := by
  induction e with
  | nil => simp [setVar, getVar, h]
  | cons p rest ih =>
      obtain ⟨k₀, v₀⟩ := p
      by_cases h₀ : k₀ = k'
      · subst h₀; simp [setVar, getVar, h]
      · simp [setVar, getVar, h₀, ih]

theorem assocGet_assocSet_self {α : Type} (o : List (String × α)) (k : String) (v : α) :
    assocGet (assocSet o k v) k = some v := by
  induction o with
  | nil => simp [assocSet, assocGet]
  | cons p rest ih =>
      obtain ⟨k', v'⟩ := p
      by_cases h : k' = k
      · subst h; simp [assocSet, assocGet]
      · simp [assocSet, assocGet, h, ih]

theorem assocGet_assocSet_ne {α : Type} (o : List (String × α)) (k' : String) (v : α)
    (k : String) (h : k' ≠ k) :
    assocGet (assocSet o k' v) k = assocGet o k := by
  induction o with
  | nil => simp [assocSet, assocGet, h]
  | cons p rest ih =>
      obtain ⟨k₀, v₀⟩ := p
      by_cases h₀ : k₀ = k'
      · subst h₀; simp [assocSet, assocGet, h]
      · simp [assocSet, assocGet, h₀, ih]

theorem assocGet_isSome_iff {α : Type} (o : List (String × α)) (k : String) :
    (assocGet o k).isSome = true ↔ k ∈ o.map Prod.fst := by
  induction o with
  | nil => simp [assocGet]
  | cons p rest ih =>
      obtain ⟨k', v'⟩ := p
      by_cases h : k' = k
      · subst h; simp [assocGet]
      · simp [assocGet, h, ih, Ne.symm h]

theorem assocSet_keys {α : Type} (o : List (String × α)) (k : String) (v : α)
    (h : k ∈ o.map Prod.fst) :
    (assocSet o k v).map Prod.fst = o.map Prod.fst := by
  induction o with
  | nil => simp at h
  | cons p rest ih =>
      obtain ⟨k', v'⟩ := p
      by_cases h' : k' = k
      · subst h'; simp [assocSet]
      · have : k ∈ rest.map Prod.fst := by
          simpa [Ne.symm h'] using h
        simp [assocSet, h', ih this]

theorem strAppend_left_cancel {s a b : String} (h : s ++ a = s ++ b) : a = b := by
  have hd : s.data ++ a.data = s.data ++ b.data := by
    have := congrArg String.data h
    simpa [String.data_append] using this
  exact String.ext (List.append_cancel_left hd)

theorem isPrefixOf_append_self (p l : List Char) : p.isPrefixOf (p ++ l) = true := by
  induction p with
  | nil => simp [List.isPrefixOf]
  | cons a as ih => simp [List.isPrefixOf, ih]

theorem softvar_prefix_ne {x k : String}
    (h : ("SOFTVAR".data).isPrefixOf k.data = false) : "SOFTVAR" ++ x ≠ k := by
  intro heq
  rw [← heq, String.data_append, isPrefixOf_append_self] at h
  exact Bool.true_eq_false.mp h

theorem strAppend_empty (s : String) : s ++ "" = s := by
  apply String.ext
  simp [String.data_append]

/-! ## `_flagsForSubdirs` lemmas -/

theorem flags_foldl_eq (isdir : String → Bool) (base : String) (flagT : String → String)
    (subdirs : List String) : ∀ acc : List String,
    subdirs.foldl (flagStep isdir base flagT) acc
      = acc ++ (subdirs.filter (fun sd => isdir (pathJoin base sd))).map
          (fun sd => flagT (pathJoin base sd)) := by
  induction subdirs with
  | nil => intro acc; simp
  | cons sd rest ih =>
      intro acc
      by_cases h : isdir (pathJoin base sd)
      · simp [flagStep, h, ih, List.filter_cons]
      · simp [flagStep, h, ih, List.filter_cons]

theorem getVar_flagsForSubdirs_self (isdir : String → Bool) (base : String)
    (subdirs : List String) (flagT : String → String) (varskey : String) (vars : Env) :
    getVar (_flagsForSubdirs isdir base subdirs flagT varskey vars) varskey
      = some (((getVar vars varskey).getD "")
          ++ " " ++ joinSpace ((subdirs.filter (fun sd => isdir (pathJoin base sd))).map
              (fun sd => flagT (pathJoin base sd)))) := by
  unfold _flagsForSubdirs
  rw [flags_foldl_eq]
  by_cases hs : (getVar vars varskey).isSome
  · simp only [hs, if_pos, List.nil_append]
    rw [getVar_setVar_self]
  · simp only [hs, Bool.false_eq_true, if_neg, List.nil_append, not_false_eq_true]
    rw [getVar_setVar_self]
    rw [Option.not_isSome_iff_eq_none] at hs
    rw [getVar_setVar_self, hs]
    rfl

theorem getVar_flagsForSubdirs_ne (isdir : String → Bool) (base : String)
    (subdirs : List String) (flagT : String → String) (varskey : String) (vars : Env)
    (k : String) (h : varskey ≠ k) :
    getVar (_flagsForSubdirs isdir base subdirs flagT varskey vars) k = getVar vars k := by
  unfold _flagsForSubdirs
  by_cases hs : (getVar vars varskey).isSome
  · simp only [hs, if_pos]
    rw [getVar_setVar_ne _ _ _ _ h]
  · simp only [hs, Bool.false_eq_true, if_neg, not_false_eq_true]
    rw [getVar_setVar_ne _ _ _ _ h, getVar_setVar_ne _ _ _ _ h]

theorem getVar_addDependencyVariables (gsr : String → Option String) (isdir : String → Bool)
    (depname : String) (vars : Env) (root : String) (k : String)
    (hr : gsr depname = some root) (h1 : k ≠ "CPPFLAGS") (h2 : k ≠ "LDFLAGS") :
    _addDependencyVariables gsr isdir depname vars
      = .ok (_flagsForSubdirs isdir root ["lib64", "lib"] (fun d => "-L" ++ d) "LDFLAGS"
          (_flagsForSubdirs isdir root ["include"] (fun d => "-I" ++ d) "CPPFLAGS" vars)) ∧
    getVar (_flagsForSubdirs isdir root ["lib64", "lib"] (fun d => "-L" ++ d) "LDFLAGS"
          (_flagsForSubdirs isdir root ["include"] (fun d => "-I" ++ d) "CPPFLAGS" vars)) k
      = getVar vars k := by
  constructor
  · unfold _addDependencyVariables
    rw [hr]
  · rw [getVar_flagsForSubdirs_ne _ _ _ _ _ _ _ (Ne.symm h2),
        getVar_flagsForSubdirs_ne _ _ _ _ _ _ _ (Ne.symm h1)]

/-! ## `_setVariables` lemmas -/

theorem getVar_setVarStep_ne (dl : List String) (e : Env) (kv : String × String)
    (q : String) (h1 : kv.1 ≠ q) (h2 : "SOFTVAR" ++ kv.1 ≠ q) :
    getVar (setVarStep dl e kv) q = getVar e q := by
  unfold setVarStep
  split
  · rfl
  · rw [getVar_setVar_ne _ _ _ _ h2, getVar_setVar_ne _ _ _ _ h1]

theorem setVariables_foldl_preserve (dl : List String) (rest : List (String × String))
    (q : String) : ∀ e : Env, (∀ p ∈ rest, p.1 ≠ q ∧ "SOFTVAR" ++ p.1 ≠ q) →
    getVar (rest.foldl (setVarStep dl) e) q = getVar e q := by
  induction rest with
  | nil => intro e _; rfl
  | cons p rest ih =>
      intro e h
      rw [List.foldl_cons,
          ih _ (fun p' hp' => h p' (List.mem_cons_of_mem _ hp')),
          getVar_setVarStep_ne _ _ _ _ (h p (List.mem_cons_self _ _)).1
            (h p (List.mem_cons_self _ _)).2]

theorem setVariables_core (dl : List String) :
    ∀ (vars : List (String × String)) (env : Env) (k v : String),
    (vars.map Prod.fst).Nodup →
    (∀ p ∈ vars, ("SOFTVAR".data).isPrefixOf p.1.data = false) →
    (k, v) ∈ vars →
    (k ∉ dl →
       getVar (vars.foldl (setVarStep dl) env) k = some v ∧
       getVar (vars.foldl (setVarStep dl) env) ("SOFTVAR" ++ k) = some v) ∧
    (k ∈ dl →
       getVar (vars.foldl (setVarStep dl) env) k = getVar env k ∧
       getVar (vars.foldl (setVarStep dl) env) ("SOFTVAR" ++ k)
         = getVar env ("SOFTVAR" ++ k)) := by
  intro vars
  induction vars with
  | nil => intro env k v _ _ hk; exact absurd hk (List.not_mem_nil _)
  | cons p rest ih =>
      intro env k v hnodup hpre hk
      have hnd : p.1 ∉ rest.map Prod.fst ∧ (rest.map Prod.fst).Nodup := by
        simpa [List.nodup_cons] using hnodup
      have hpk : ("SOFTVAR".data).isPrefixOf k.data = false := hpre (k, v) hk
      rcases List.mem_cons.mp hk with heq | hmem
      · have hp : p = (k, v) := heq.symm
        subst hp
        have hq1 : ∀ p' ∈ rest, p'.1 ≠ k ∧ "SOFTVAR" ++ p'.1 ≠ k := by
          intro p' hp'
          refine ⟨?_, softvar_prefix_ne hpk⟩
          intro e
          have hm : p'.1 ∈ rest.map Prod.fst := List.mem_map_of_mem Prod.fst hp'
          rw [e] at hm
          exact hnd.1 hm
        have hq2 : ∀ p' ∈ rest, p'.1 ≠ "SOFTVAR" ++ k ∧ "SOFTVAR" ++ p'.1 ≠ "SOFTVAR" ++ k := by
          intro p' hp'
          refine ⟨Ne.symm (softvar_prefix_ne (hpre p' (List.mem_cons_of_mem _ hp'))), ?_⟩
          intro e
          exact (hq1 p' hp').1 (strAppend_left_cancel e)
        constructor
        · intro hnot
          have hstep : setVarStep dl env (k, v)
              = setVar (setVar env k v) ("SOFTVAR" ++ k) v := by
            simp [setVarStep, hnot]
          refine ⟨?_, ?_⟩
          · rw [List.foldl_cons, setVariables_foldl_preserve dl rest k _ hq1, hstep,
                getVar_setVar_ne _ _ _ _ (softvar_prefix_ne hpk), getVar_setVar_self]
          · rw [List.foldl_cons, setVariables_foldl_preserve dl rest ("SOFTVAR" ++ k) _ hq2,
                hstep, getVar_setVar_self]
        · intro hin
          have hstep : setVarStep dl env (k, v) = env := by simp [setVarStep, hin]
          refine ⟨?_, ?_⟩
          · rw [List.foldl_cons, setVariables_foldl_preserve dl rest k _ hq1, hstep]
          · rw [List.foldl_cons, setVariables_foldl_preserve dl rest ("SOFTVAR" ++ k) _ hq2,
                hstep]
      · have hpre' : ∀ p' ∈ rest, ("SOFTVAR".data).isPrefixOf p'.1.data = false :=
          fun p' hp' => hpre p' (List.mem_cons_of_mem _ hp')
        have hmemk : k ∈ rest.map Prod.fst := List.mem_map_of_mem Prod.fst hmem
        have hp1k : p.1 ≠ k := by
          intro e
          rw [e] at hnd
          exact hnd.1 hmemk
        have ihh := ih (setVarStep dl env p) k v hnd.2 hpre' hmem
        constructor
        · intro hnot
          rw [List.foldl_cons]
          exact ihh.1 hnot
        · intro hin
          rw [List.foldl_cons]
          refine ⟨?_, ?_⟩
          · rw [(ihh.2 hin).1,
                getVar_setVarStep_ne dl env p k hp1k (softvar_prefix_ne hpk)]
          · rw [(ihh.2 hin).2,
                getVar_setVarStep_ne dl env p ("SOFTVAR" ++ k)
                  (Ne.symm (softvar_prefix_ne (hpre p (List.mem_cons_self _ _))))
                  (fun e => hp1k (strAppend_left_cancel e))]

/-! ## `setOptions` lemmas -/

theorem setOptStep_keys (o : List (String × OptVal)) (kv : String × OptVal) :
    (setOptStep o kv).map Prod.fst = o.map Prod.fst := by
  unfold setOptStep
  split
  · exact assocSet_keys o kv.1 kv.2 ((assocGet_isSome_iff o kv.1).mp (by assumption))
  · rfl

theorem setOptions_keys (options : List (String × OptVal)) :
    ∀ opts : List (String × OptVal),
    (setOptions options opts).map Prod.fst = opts.map Prod.fst := by
  induction options with
  | nil => intro opts; rfl
  | cons kv rest ih =>
      intro opts
      unfold setOptions at ih ⊢
      rw [List.foldl_cons, ih, setOptStep_keys]

theorem assocGet_setOptStep_ne (o : List (String × OptVal)) (kv : String × OptVal)
    (k : String) (h : kv.1 ≠ k) :
    assocGet (setOptStep o kv) k = assocGet o k := by
  unfold setOptStep
  split
  · exact assocGet_assocSet_ne o kv.1 kv.2 k h
  · rfl

theorem setOptions_foldl_preserve (rest : List (String × OptVal)) (k : String) :
    ∀ o : List (String × OptVal), (∀ p ∈ rest, p.1 ≠ k) →
    assocGet (rest.foldl setOptStep o) k = assocGet o k := by
  induction rest with
  | nil => intro o _; rfl
  | cons p rest ih =>
      intro o h
      rw [List.foldl_cons, ih _ (fun p' hp' => h p' (List.mem_cons_of_mem _ hp')),
          assocGet_setOptStep_ne _ _ _ (h p (List.mem_cons_self _ _))]

theorem setOptions_copies (options : List (String × OptVal)) :
    ∀ (opts : List (String × OptVal)) (k : String) (v : OptVal),
    (options.map Prod.fst).Nodup → (k, v) ∈ options → k ∈ opts.map Prod.fst →
    assocGet (setOptions options opts) k = some v := by
  induction options with
  | nil => intro _ _ _ _ hk _; exact absurd hk (List.not_mem_nil _)
  | cons p rest ih =>
      intro opts k v hnodup hk hmem
      have hnd : p.1 ∉ rest.map Prod.fst ∧ (rest.map Prod.fst).Nodup := by
        simpa [List.nodup_cons] using hnodup
      unfold setOptions
      rw [List.foldl_cons]
      rcases List.mem_cons.mp hk with heq | hrest
      · have hp : p = (k, v) := heq.symm
        subst hp
        have hq : ∀ p' ∈ rest, p'.1 ≠ k := by
          intro p' hp' e
          have hm : p'.1 ∈ rest.map Prod.fst := List.mem_map_of_mem Prod.fst hp'
          rw [e] at hm
          exact hnd.1 hm
        rw [setOptions_foldl_preserve rest k _ hq]
        have hsome : (assocGet opts k).isSome = true := (assocGet_isSome_iff opts k).mpr hmem
        unfold setOptStep
        rw [if_pos hsome]
        exact assocGet_assocSet_self opts k v
      · have hmem' : k ∈ (setOptStep opts p).map Prod.fst := by
          rw [setOptStep_keys]; exact hmem
        exact ih (setOptStep opts p) k v hnd.2 hrest hmem'

/-! ## Claim theorems -/

/-- C1: the claim states that `_generate_variables` invokes the matching
preparation rules in ascending order of their numeric priority prefix
regardless of the order of `toolkit_deps`.  The code instead invokes them in
`toolkit_deps` order (the sorting of `meth_keys` only orders the inner name
search): for dependencies `[LAPACK, ATLAS]` the invocation sequence is
`[lapack, atlas]` although ATLAS's priority (3) is below LAPACK's (4) — and
running the LAPACK rule first aborts with a `KeyError` on the `LIBBLAS`
entry that only the BLAS rule writes. -/
theorem selectPreparationMethods_follows_dep_order :
    selectPreparationMethods [⟨"LAPACK", "3.4.0"⟩, ⟨"ATLAS", "3.8.4"⟩]
        = .ok [.lapack, .atlas]
    ∧ rulePriority .atlas < rulePriority .lapack
    ∧ prepareLAPACK gsrStd isdirNone [("LDFLAGS", ""), ("CPPFLAGS", ""), ("LIBS", "")]
        = .error (.keyError "LIBBLAS") :=
  ⟨by decide, by decide, by decide⟩

/-- C2: the claim states no previously-loaded module ever remains in
`toolkit_deps`.  The loop at toolkit.py 158-161 removes elements from the
list it is iterating over, so after removing `icc` the iterator skips over
`ifort`: with previously-loaded `[icc, ifort]` and post-load
`[icc, ifort, GCC]`, the previously-loaded `ifort` remains in the result. -/
theorem computeToolkitDeps_retains_previous_module :
    computeToolkitDeps "GCC" [⟨"icc", "11.1"⟩, ⟨"ifort", "11.1"⟩]
        [⟨"icc", "11.1"⟩, ⟨"ifort", "11.1"⟩, ⟨"GCC", "4.6.3"⟩]
      = [⟨"ifort", "11.1"⟩]
    ∧ (⟨"ifort", "11.1"⟩ : Module) ∈ [(⟨"icc", "11.1"⟩ : Module), ⟨"ifort", "11.1"⟩] :=
  ⟨by decide, by decide⟩

/-- C3 counterexample: excluding `CFLAGS` from application leaves the
mirrored `SOFTVARCFLAGS` unset as well — the `continue` at toolkit.py 214
skips the mirror assignment too, so the claim's "still sets the mirrored
variable" is false. -/
theorem setVariables_excluded_mirror_not_set :
    _setVariables (.list ["CFLAGS"]) [("CFLAGS", "-O2")] [] = []
    ∧ getVar (_setVariables (.list ["CFLAGS"]) [("CFLAGS", "-O2")] []) "SOFTVARCFLAGS"
        = none :=
  ⟨by decide, by decide⟩

/-- C3 (amended): for every vars mapping (with distinct keys, none already
carrying the `SOFTVAR` prefix) and every exclusion list, `_setVariables`
sets, for each non-excluded key, both the environment variable `key` and the
mirrored `SOFTVAR<key>` to the value; for each excluded key it sets
*neither*: both the primary variable and the mirror keep their prior
environment values. -/
theorem setVariables_spec (dontset : DontSet) (vars env : Env) (k v : String)
    (hnodup : (vars.map Prod.fst).Nodup)
    (hpre : ∀ p ∈ vars, ("SOFTVAR".data).isPrefixOf p.1.data = false)
    (hk : (k, v) ∈ vars) :
    (k ∉ dontsetListOf dontset →
       getVar (_setVariables dontset vars env) k = some v ∧
       getVar (_setVariables dontset vars env) ("SOFTVAR" ++ k) = some v) ∧
    (k ∈ dontsetListOf dontset →
       getVar (_setVariables dontset vars env) k = getVar env k ∧
       getVar (_setVariables dontset vars env) ("SOFTVAR" ++ k)
         = getVar env ("SOFTVAR" ++ k)) :=
  setVariables_core (dontsetListOf dontset) vars env k v hnodup hpre hk

/-- C3 witness: applying `{CFLAGS: -O2, LIBS: -lm}` with `CFLAGS` excluded
sets `LIBS` and its mirror. -/
theorem setVariables_spec_witness :
    getVar (_setVariables (.list ["CFLAGS"]) [("CFLAGS", "-O2"), ("LIBS", "-lm")] [])
        "LIBS" = some "-lm"
    ∧ getVar (_setVariables (.list ["CFLAGS"]) [("CFLAGS", "-O2"), ("LIBS", "-lm")] [])
        "SOFTVARLIBS" = some "-lm" :=
  (setVariables_spec (.list ["CFLAGS"]) [("CFLAGS", "-O2"), ("LIBS", "-lm")] [] "LIBS" "-lm"
      (by decide) (by decide) (by decide)).1 (by decide)

/-- C4: the claim states `prepareIMKL` fails exactly when both GCC and Intel
compilers are loaded, and with GCC alone swaps `mkl_intel_lp64` for
`mkl_gf_lp64` without failing.  The inner guard of toolkit.py 557 tests
`SOFTROOTGCC` twice instead of the Intel markers, so with only GCC loaded
(`SOFTROOTICC` and `SOFTROOTIFORT` absent) the code still raises the
"both compilers" fatal error and the swap branch is unreachable. -/
theorem imklCompilerSwap_gcc_only_fatal :
    getVar [("SOFTROOTGCC", "/software/GCC-4.6.3")] "SOFTROOTICC" = none
    ∧ getVar [("SOFTROOTGCC", "/software/GCC-4.6.3")] "SOFTROOTIFORT" = none
    ∧ imklCompilerSwap [("SOFTROOTGCC", "/software/GCC-4.6.3")]
        [("LIBLAPACK", "libmkl_intel_lp64.a"), ("LIBLAPACK_MT", "libmkl_intel_lp64.a"),
         ("LIBSCALAPACK", "libmkl_intel_lp64.a"), ("LIBSCALAPACK_MT", "libmkl_intel_lp64.a")]
      = .error (.easyBuildError
          "Toolkit preparation with both GCC and Intel compilers loaded is not supported.") :=
  ⟨by decide, by decide, by decide⟩

/-- C5: the claim states a non-ScaleMP MPICH2 raises the structured
`EasyBuildError` and not some other exception.  The source (toolkit.py 634)
calls `self.log.error`, but `Toolkit.__init__` never defines a `log`
attribute, so the code raises `AttributeError` before any error formatting
happens (no MPI wrapper variable is set either, the result is an exception,
not an updated vars dict). -/
theorem prepareMPICH2_nonScaleMP_attributeError :
    prepareMPICH2 [("SOFTVERSIONMPICH2", "1.4.1p1")] false false "" []
      = .error (.attributeError "Toolkit instance has no attribute log") :=
  by decide

/-- C6 counterexample: starting from the BLACS state
(`LIBSCALAPACK = LIBSCALAPACK_MT = " -lblacsF77init -lblacs "`),
`prepareScaLAPACK` leaves `LIBSCALAPACK_MT` with the whole updated
`LIBSCALAPACK` line spliced in (the BLACS libraries appear twice), not the
prior value plus just `" -lscalapack -lpthread"` as the claim states. -/
theorem prepareScaLAPACK_mt_duplicates_line :
    Except.map (fun v => getVar v "LIBSCALAPACK_MT")
        (prepareScaLAPACK gsrStd isdirNone
          [("LIBSCALAPACK", " -lblacsF77init -lblacs "),
           ("LIBSCALAPACK_MT", " -lblacsF77init -lblacs ")])
      = .ok (some " -lblacsF77init -lblacs   -lblacsF77init -lblacs  -lscalapack -lpthread")
    ∧ (" -lblacsF77init -lblacs   -lblacsF77init -lblacs  -lscalapack -lpthread" : String)
        ≠ " -lblacsF77init -lblacs " ++ " -lscalapack" ++ " -lpthread" :=
  ⟨by decide, by decide⟩

/-- C6 (amended): `prepareScaLAPACK` appends exactly `" -lscalapack"` to
`LIBSCALAPACK`; but `LIBSCALAPACK_MT` becomes its prior value followed by a
space, the *entire updated* `LIBSCALAPACK` line, and `" -lpthread"` — the
whole updated non-threaded line (not just the fixed fragment) is inserted
into the threaded line. -/
theorem prepareScaLAPACK_spec (gsr : String → Option String) (isdir : String → Bool)
    (vars : Env) (ls mt root : String)
    (hls : getVar vars "LIBSCALAPACK" = some ls)
    (hmt : getVar vars "LIBSCALAPACK_MT" = some mt)
    (hr : gsr "ScaLAPACK" = some root) :
    ∃ v, prepareScaLAPACK gsr isdir vars = .ok v ∧
      getVar v "LIBSCALAPACK" = some (ls ++ " -lscalapack") ∧
      getVar v "LIBSCALAPACK_MT"
        = some (mt ++ " " ++ (ls ++ " -lscalapack") ++ " -lpthread") := by
  have h1 : getVar (setVar vars "LIBSCALAPACK" (ls ++ " -lscalapack")) "LIBSCALAPACK_MT"
      = some mt := by
    rw [getVar_setVar_ne _ _ _ _ (by decide)]; exact hmt
  have h2 : getVar (setVar vars "LIBSCALAPACK" (ls ++ " -lscalapack")) "LIBSCALAPACK"
      = some (ls ++ " -lscalapack") := getVar_setVar_self _ _ _
  have hstep : prepareScaLAPACK gsr isdir vars
      = _addDependencyVariables gsr isdir "ScaLAPACK"
          (setVar (setVar vars "LIBSCALAPACK" (ls ++ " -lscalapack")) "LIBSCALAPACK_MT"
            (mt ++ " " ++ (ls ++ " -lscalapack") ++ " -lpthread")) := by
    simp only [prepareScaLAPACK, hls, h1, h2]
  have hA := getVar_addDependencyVariables gsr isdir "ScaLAPACK"
      (setVar (setVar vars "LIBSCALAPACK" (ls ++ " -lscalapack")) "LIBSCALAPACK_MT"
        (mt ++ " " ++ (ls ++ " -lscalapack") ++ " -lpthread")) root "LIBSCALAPACK"
      hr (by decide) (by decide)
  have hB := getVar_addDependencyVariables gsr isdir "ScaLAPACK"
      (setVar (setVar vars "LIBSCALAPACK" (ls ++ " -lscalapack")) "LIBSCALAPACK_MT"
        (mt ++ " " ++ (ls ++ " -lscalapack") ++ " -lpthread")) root "LIBSCALAPACK_MT"
      hr (by decide) (by decide)
  refine ⟨_, hstep ▸ hA.1, ?_, ?_⟩
  · rw [hA.2, getVar_setVar_ne _ _ _ _ (by decide), h2]
  · rw [hB.2, getVar_setVar_self]

/-- C6 witness: the amended statement at the concrete post-BLACS state. -/
theorem prepareScaLAPACK_spec_witness :
    ∃ v, prepareScaLAPACK gsrStd isdirNone
        [("LIBSCALAPACK", " -lblacsF77init -lblacs "),
         ("LIBSCALAPACK_MT", " -lblacsF77init -lblacs ")] = .ok v ∧
      getVar v "LIBSCALAPACK" = some (" -lblacsF77init -lblacs " ++ " -lscalapack") ∧
      getVar v "LIBSCALAPACK_MT"
        = some (" -lblacsF77init -lblacs " ++ " "
            ++ (" -lblacsF77init -lblacs " ++ " -lscalapack") ++ " -lpthread") :=
  prepareScaLAPACK_spec gsrStd isdirNone
    [("LIBSCALAPACK", " -lblacsF77init -lblacs "),
     ("LIBSCALAPACK_MT", " -lblacsF77init -lblacs ")]
    " -lblacsF77init -lblacs " " -lblacsF77init -lblacs " "/software/ScaLAPACK"
    (by decide) (by decide) (by decide)

/-- C7: for a dependency descriptor carrying an explicit version,
`getDependencyVersion` returns `<version><toolkit-suffix><dep-suffix>`,
where the toolkit suffix is `-<name>-<version>` for a non-dummy toolkit, the
bare toolkit version for a dummy toolkit with a non-"dummy" version, and
empty when the descriptor is marked toolkit-independent. -/
theorem getDependencyVersion_spec (tkname tkversion : String)
    (available : String → String → List String) (dep : Dependency) (v : String)
    (hv : dep.version = some v) :
    (dep.dummy = some true →
       getDependencyVersion tkname tkversion available dep
         = .ok (v ++ dep.suffix.getD "")) ∧
    (dep.dummy ≠ some true → tkname ≠ "dummy" →
       getDependencyVersion tkname tkversion available dep
         = .ok (v ++ ("-" ++ tkname ++ "-" ++ tkversion) ++ dep.suffix.getD "")) ∧
    (dep.dummy ≠ some true → tkname = "dummy" → tkversion ≠ "dummy" →
       getDependencyVersion tkname tkversion available dep
         = .ok (v ++ tkversion ++ dep.suffix.getD "")) := by
  refine ⟨?_, ?_, ?_⟩
  · intro hd
    simp [getDependencyVersion, hv, hd, strAppend_empty]
  · intro hd hn
    simp [getDependencyVersion, hv, hd, hn]
  · intro hd hn hv2
    simp [getDependencyVersion, hv, hd, hn, hv2]

/-- C7 witness: `{name: FFTW, version: 3.3.1}` under toolkit `GCC/4.6.3`
resolves to `3.3.1-GCC-4.6.3`. -/
theorem getDependencyVersion_spec_witness :
    getDependencyVersion "GCC" "4.6.3" (fun _ _ => [])
        { name := "FFTW", version := some "3.3.1" }
      = .ok "3.3.1-GCC-4.6.3" :=
  (getDependencyVersion_spec "GCC" "4.6.3" (fun _ _ => [])
      { name := "FFTW", version := some "3.3.1" } "3.3.1" rfl).2.1
    (by decide) (by decide)

/-- C8: whenever `prepareLAPACK` runs on a vars state where a BLAS rule has
set `LIBBLAS` and `LIBBLAS_MT` (and the LAPACK software root is present),
the final state has `LIBLAPACK = LIBBLAS ++ " -llapack"` and
`LIBLAPACK_MT = LIBBLAS_MT ++ " -llapack -lpthread"`, with the BLAS lines
themselves unchanged. -/
theorem prepareLAPACK_spec (gsr : String → Option String) (isdir : String → Bool)
    (vars : Env) (b bmt root : String)
    (hb : getVar vars "LIBBLAS" = some b)
    (hbmt : getVar vars "LIBBLAS_MT" = some bmt)
    (hr : gsr "LAPACK" = some root) :
    ∃ v, prepareLAPACK gsr isdir vars = .ok v ∧
      getVar v "LIBBLAS" = some b ∧
      getVar v "LIBBLAS_MT" = some bmt ∧
      getVar v "LIBLAPACK" = some (b ++ " -llapack") ∧
      getVar v "LIBLAPACK_MT" = some (bmt ++ " -llapack -lpthread") := by
  have h1 : getVar (setVar vars "LIBLAPACK" (b ++ " -llapack")) "LIBBLAS_MT" = some bmt := by
    rw [getVar_setVar_ne _ _ _ _ (by decide)]; exact hbmt
  have hstep : prepareLAPACK gsr isdir vars
      = _addDependencyVariables gsr isdir "LAPACK"
          (setVar (setVar vars "LIBLAPACK" (b ++ " -llapack")) "LIBLAPACK_MT"
            (bmt ++ " -llapack -lpthread")) := by
    simp only [prepareLAPACK, hb, h1]
  have hA := getVar_addDependencyVariables gsr isdir "LAPACK"
      (setVar (setVar vars "LIBLAPACK" (b ++ " -llapack")) "LIBLAPACK_MT"
        (bmt ++ " -llapack -lpthread")) root "LIBBLAS" hr (by decide) (by decide)
  have hB := getVar_addDependencyVariables gsr isdir "LAPACK"
      (setVar (setVar vars "LIBLAPACK" (b ++ " -llapack")) "LIBLAPACK_MT"
        (bmt ++ " -llapack -lpthread")) root "LIBBLAS_MT" hr (by decide) (by decide)
  have hC := getVar_addDependencyVariables gsr isdir "LAPACK"
      (setVar (setVar vars "LIBLAPACK" (b ++ " -llapack")) "LIBLAPACK_MT"
        (bmt ++ " -llapack -lpthread")) root "LIBLAPACK" hr (by decide) (by decide)
  have hD := getVar_addDependencyVariables gsr isdir "LAPACK"
      (setVar (setVar vars "LIBLAPACK" (b ++ " -llapack")) "LIBLAPACK_MT"
        (bmt ++ " -llapack -lpthread")) root "LIBLAPACK_MT" hr (by decide) (by decide)
  refine ⟨_, hstep ▸ hA.1, ?_, ?_, ?_, ?_⟩
  · rw [hA.2, getVar_setVar_ne _ _ _ _ (by decide),
        getVar_setVar_ne _ _ _ _ (by decide)]
    exact hb
  · rw [hB.2, getVar_setVar_ne _ _ _ _ (by decide),
        getVar_setVar_ne _ _ _ _ (by decide)]
    exact hbmt
  · rw [hC.2, getVar_setVar_ne _ _ _ _ (by decide), getVar_setVar_self]
  · rw [hD.2, getVar_setVar_self]

/-- C8 witness: the LAPACK rule applied to the exact state the ATLAS rule
leaves behind. -/
theorem prepareLAPACK_spec_witness :
    ∃ v, prepareLAPACK gsrStd isdirNone
        [("LIBBLAS", " -latlas -llapack -lcblas -lf77blas"),
         ("LIBBLAS_MT", " -latlas -llapack -lptcblas -lptf77blas -lpthread")] = .ok v ∧
      getVar v "LIBBLAS" = some " -latlas -llapack -lcblas -lf77blas" ∧
      getVar v "LIBBLAS_MT" = some " -latlas -llapack -lptcblas -lptf77blas -lpthread" ∧
      getVar v "LIBLAPACK"
        = some (" -latlas -llapack -lcblas -lf77blas" ++ " -llapack") ∧
      getVar v "LIBLAPACK_MT"
        = some (" -latlas -llapack -lptcblas -lptf77blas -lpthread"
            ++ " -llapack -lpthread") :=
  prepareLAPACK_spec gsrStd isdirNone
    [("LIBBLAS", " -latlas -llapack -lcblas -lf77blas"),
     ("LIBBLAS_MT", " -latlas -llapack -lptcblas -lptf77blas -lpthread")]
    " -latlas -llapack -lcblas -lf77blas"
    " -latlas -llapack -lptcblas -lptf77blas -lpthread"
    "/software/LAPACK" (by decide) (by decide) (by decide)

/-- C9: `setOptions` never changes the key set of the opts dict: recognized
keys have their values copied, keys outside the recognized set are ignored
without an exception (the function is total) and are not added — after the
call (indeed at every point) an unrecognized key is still absent. -/
theorem setOptions_spec (options opts : List (String × OptVal))
    (hnodup : (options.map Prod.fst).Nodup) :
    ((setOptions options opts).map Prod.fst = opts.map Prod.fst) ∧
    (∀ k v, (k, v) ∈ options → k ∈ opts.map Prod.fst →
       assocGet (setOptions options opts) k = some v) ∧
    (∀ k, k ∉ opts.map Prod.fst → assocGet (setOptions options opts) k = none) := by
  refine ⟨setOptions_keys options opts, ?_, ?_⟩
  · intro k v hkv hmem
    exact setOptions_copies options opts k v hnodup hkv hmem
  · intro k hmem
    rcases ho : assocGet (setOptions options opts) k with _ | w
    · rfl
    · exfalso
      apply hmem
      have h := (assocGet_isSome_iff (setOptions options opts) k)
      rw [setOptions_keys] at h
      apply h.mp
      rw [ho]
      rfl

/-- C9 witness: the recognized `usempi` is copied into the default opts, the
unrecognized `bogus` is ignored, and the key set is unchanged. -/
theorem setOptions_spec_witness :
    assocGet (setOptions [("usempi", OptVal.b true), ("bogus", OptVal.b true)] defaultOpts)
        "usempi" = some (OptVal.b true)
    ∧ assocGet (setOptions [("usempi", OptVal.b true), ("bogus", OptVal.b true)] defaultOpts)
        "bogus" = none
    ∧ (setOptions [("usempi", OptVal.b true), ("bogus", OptVal.b true)] defaultOpts).map
        Prod.fst = defaultOpts.map Prod.fst :=
  ⟨(setOptions_spec [("usempi", OptVal.b true), ("bogus", OptVal.b true)] defaultOpts
      (by decide)).2.1 "usempi" (OptVal.b true) (by decide) (by decide),
   (setOptions_spec [("usempi", OptVal.b true), ("bogus", OptVal.b true)] defaultOpts
      (by decide)).2.2 "bogus" (by decide),
   (setOptions_spec [("usempi", OptVal.b true), ("bogus", OptVal.b true)] defaultOpts
      (by decide)).1⟩

/-- C10: `_flagsForSubdirs` is total (never raises) and always leaves
`varskey` present, with value equal to its prior value (or `""` if absent)
followed by one space and the space-joined flags of the subdirectories that
exist; when no listed subdirectory exists, the variable still gains a
trailing space. -/
theorem flagsForSubdirs_spec (isdir : String → Bool) (base : String) (subdirs : List String)
    (flagT : String → String) (varskey : String) (vars : Env) :
    getVar (_flagsForSubdirs isdir base subdirs flagT varskey vars) varskey
      = some (((getVar vars varskey).getD "")
          ++ " " ++ joinSpace ((subdirs.filter (fun sd => isdir (pathJoin base sd))).map
              (fun sd => flagT (pathJoin base sd)))) ∧
    ((∀ sd ∈ subdirs, isdir (pathJoin base sd) = false) →
      getVar (_flagsForSubdirs isdir base subdirs flagT varskey vars) varskey
        = some (((getVar vars varskey).getD "") ++ " ")) := by
  refine ⟨getVar_flagsForSubdirs_self isdir base subdirs flagT varskey vars, ?_⟩
  intro hnone
  rw [getVar_flagsForSubdirs_self]
  have hfil : subdirs.filter (fun sd => isdir (pathJoin base sd)) = [] := by
    rw [List.filter_eq_nil_iff]
    intro a ha
    simp [hnone a ha]
  rw [hfil]
  show some ((getVar vars varskey).getD "" ++ " " ++ joinSpace []) = _
  rw [show joinSpace [] = "" from rfl, strAppend_empty]

/-- C10 witness: a root with no existing subdirectory still appends a
trailing space to the (previously absent) `CPPFLAGS`. -/
theorem flagsForSubdirs_spec_witness :
    getVar (_flagsForSubdirs isdirNone "/software/ATLAS" ["include"]
        (fun d => "-I" ++ d) "CPPFLAGS" []) "CPPFLAGS" = some " " :=
  (flagsForSubdirs_spec isdirNone "/software/ATLAS" ["include"] (fun d => "-I" ++ d)
      "CPPFLAGS" []).2 (by decide)

end EasyBuild

